import Mathlib

/-!
# mesheryctl `model` command: a shallow embedding

The Go source is `mesheryctl/internal/cli/root/model/model.go`.  The command is a
thin client: every interesting step is a call to a collaborator (the HTTP
helper, the JSON decoder, the table printer, the prompt, ...).  Each such call
is modelled by a field of an environment structure giving the call's result,
and every call that is made is recorded, in program order, in a trace of
`Event`s.  A function of the source becomes a function from its environment and
its arguments to the trace it produces and the value it returns.
-/

namespace Meshery

/-! ## Errors, outcomes, events -/

/-- Go `error` values, as far as the command builds or inspects them. -/
inductive GoError where
  /-- An error made by `errors.New msg`, or received from a collaborator. -/
  | new (msg : String)
  /-- The result of `errors.Wrap cause msg`. -/
  | wrap (cause : GoError) (msg : String)
  /-- The result of `utils.ErrInvalidArgument cause`. -/
  | invalidArgument (cause : GoError)
  deriving DecidableEq, Repr

/-- How a call of a Go function ends. -/
inductive Outcome (α : Type) where
  /-- The function returned `a`. -/
  | returned (a : α)
  /-- A run-time panic (index out of range). -/
  | panicked
  /-- The process was ended by `log.Fatalln`. -/
  | exited
  deriving DecidableEq, Repr

/-- The `Category` of a model. -/
structure Category where
  Name : String
  deriving DecidableEq, Repr

/-- Modelled from the spec: the type declaration `v1beta1.Model` is not part of the
source file; the fields are the ones the spec's data model lists (and the only
ones `model.go` reads). -/
structure Model where
  Name : String
  DisplayName : String
  Version : String
  Category : Category
  deriving DecidableEq, Repr

/-- Modelled from the spec: the type declaration `models.MeshmodelsAPIResponse` is
not part of the source file; `Count` and `Models` are the fields `listModel` reads. -/
structure MeshmodelsAPIResponse where
  Count : Int
  Models : List Model
  deriving DecidableEq, Repr

/-- An HTTP request as built by `utils.NewRequest`. -/
structure Request where
  method : String
  url : String
  deriving DecidableEq, Repr

/-- An HTTP response as returned by `utils.MakeRequest`; `body` names its body stream. -/
structure Response where
  body : String
  deriving DecidableEq, Repr

/-- The calls to collaborators, in the order they are made. -/
inductive Event where
  | getMesheryCtl
  | isServerRunning (url : String)
  | getCurrentContext
  | validateVersion
  | usage
  | fatalln (err : GoError) (msg : String)
  | newRequest (method url : String)
  | makeRequest (req : Request)
  | readAll (resp : Response)
  | bodyClose (resp : Response)
  | unmarshal (data : String)
  | logError (err : GoError)
  | whiteBoardPrintln (text : String)
  | displayCount (what : String) (count : Int)
  | printToTable (header : List String) (rows : List (List String))
  | handlePagination (pageSize : Nat) (what : String) (rows : List (List String))
      (header : List String)
  | promptRun (label : String) (items : List String)
  | encoderEncode (model : Model)
  | stdoutWrite (text : String)
  | marshalIndent (model : Model)
  | fmtPrint (text : String)
  deriving DecidableEq, Repr

/-! ## Package variables -/

/-- Maximum number of rows to be displayed in a page. -/
def maxRowsPerPage : Nat := 25

/-- Modelled from the spec: the commands `listModelCmd`, `viewModelCmd`,
`searchModelCmd` and `importModelCmd` are declared in other files of the package;
the list holds their names, in the order of `availableSubcommands`. -/
def availableSubcommands : List String := ["list", "view", "search", "import"]

/-- Modelled from the spec: `utils.IsValidSubcommand` is not part of the source
file; a subcommand is recognized when it is the name of an available command. -/
def IsValidSubcommand (available : List String) (userInput : String) : Bool :=
  available.contains userInput

/-- Go's `len` of a string: its length in bytes. -/
def goLen (s : String) : Nat := s.utf8ByteSize

/-! ## `listModel` -/

/-- The collaborators of `listModel`. -/
structure ListEnv where
  /-- The function `utils.NewRequest(method, url, nil)`. -/
  newRequest : String → String → Except GoError Request
  /-- The function `utils.MakeRequest(req)`. -/
  makeRequest : Request → Except GoError Response
  /-- The function `io.ReadAll(resp.Body)`. -/
  readAll : Response → Except GoError String
  /-- The function `json.Unmarshal(data, modelsResponse)`. -/
  unmarshal : String → Except GoError MeshmodelsAPIResponse
  /-- The function `cmd.Flags().Changed("page")`. -/
  pageChanged : Bool
  /-- The function `utils.HandlePagination(pageSize, what, rows, header)`. -/
  handlePagination : Nat → String → List (List String) → List String → Option GoError

/-- The table header of `listModel`. -/
def header : List String := ["Model", "Category", "Version"]

/-- The loop of `listModel` that builds the table rows: one pass over the models,
appending a row for each model whose display name has positive length. -/
def buildRows (models : List Model) : List (List String) :=
  models.foldl
    (fun rows model =>
      if goLen model.DisplayName > 0 then
        rows ++ [[model.Name, model.Category.Name, model.Version]]
      else rows)
    []

/-- The part of `listModel` after the response is decoded. -/
def present (env : ListEnv) (modelsResponse : MeshmodelsAPIResponse)
    (displayCountOnly : Bool) : List Event × Option GoError :=
  let rows := buildRows modelsResponse.Models
  if rows.length = 0 then
    ([Event.whiteBoardPrintln "No model(s) found"], none)
  else
    let t := [Event.displayCount "models" modelsResponse.Count]
    if displayCountOnly then
      (t, none)
    else if env.pageChanged then
      (t ++ [Event.printToTable header rows], none)
    else
      match env.handlePagination maxRowsPerPage "models" rows header with
      | some err =>
        (t ++ [Event.handlePagination maxRowsPerPage "models" rows header,
               Event.logError err], some err)
      | none =>
        (t ++ [Event.handlePagination maxRowsPerPage "models" rows header], none)

/-- The part of `listModel` between `defer resp.Body.Close()` and the return. -/
def readAndPresent (env : ListEnv) (resp : Response) (displayCountOnly : Bool) :
    List Event × Option GoError :=
  match env.readAll resp with
  | .error err => ([Event.readAll resp, Event.logError err], some err)
  | .ok data =>
    match env.unmarshal data with
    | .error err =>
      ([Event.readAll resp, Event.unmarshal data, Event.logError err], some err)
    | .ok modelsResponse =>
      let r := present env modelsResponse displayCountOnly
      ([Event.readAll resp, Event.unmarshal data] ++ r.1, r.2)

/-- The function `listModel(cmd, url, displayCountOnly)`: the trace and the returned error. -/
def listModel (env : ListEnv) (url : String) (displayCountOnly : Bool) :
    List Event × Option GoError :=
  match env.newRequest "GET" url with
  | .error err => ([Event.newRequest "GET" url, Event.logError err], some err)
  | .ok req =>
    match env.makeRequest req with
    | .error err =>
      ([Event.newRequest "GET" url, Event.makeRequest req, Event.logError err], some err)
    | .ok resp =>
      let r := readAndPresent env resp displayCountOnly
      ([Event.newRequest "GET" url, Event.makeRequest req] ++ r.1 ++ [Event.bodyClose resp],
        r.2)

/-- The rows of the table events of a trace. -/
def tablesOf : List Event → List (List (List String))
  | [] => []
  | Event.printToTable _ rows :: t => rows :: tablesOf t
  | Event.handlePagination _ _ rows _ :: t => rows :: tablesOf t
  | _ :: t => tablesOf t

/-- An environment in which every step succeeds and the decoder gives `resp`. -/
def okEnv (resp : MeshmodelsAPIResponse) (pageChanged : Bool)
    (pagination : Option GoError) : ListEnv where
  newRequest := fun m u => .ok ⟨m, u⟩
  makeRequest := fun _ => .ok ⟨"body"⟩
  readAll := fun _ => .ok "data"
  unmarshal := fun _ => .ok resp
  pageChanged := pageChanged
  handlePagination := fun _ _ _ _ => pagination

/-- The response of the spec's example. -/
def exampleResponse : MeshmodelsAPIResponse :=
  ⟨2, [⟨"a", "A", "v1", ⟨"c1"⟩⟩, ⟨"b", "", "v2", ⟨"c2"⟩⟩]⟩

/-! ## The `model` command: `PreRunE`, `Args`, `RunE` -/

/-- A context of the configuration, as far as `PreRunE` uses it. -/
structure Context where
  /-- The method `ctx.ValidateVersion()`. -/
  validateVersion : Option GoError

/-- The configuration returned by `config.GetMesheryCtl`, as far as the command uses it. -/
structure MesheryCtlConfig where
  /-- The method `mctlCfg.GetBaseMesheryURL()`. -/
  baseMesheryURL : String
  /-- The method `mctlCfg.GetCurrentContext()`. -/
  currentContext : Except GoError Context

/-- The collaborators of the `model` command itself. -/
structure CmdEnv where
  /-- The function `config.GetMesheryCtl(viper.GetViper())`. -/
  getMesheryCtl : Except GoError MesheryCtlConfig
  /-- The function `utils.IsServerRunning(url)`. -/
  isServerRunning : String → Option GoError
  /-- The method `cmd.Usage()`. -/
  usage : Option GoError
  /-- The function `utils.SystemModelSubError(msg, cmd)`. -/
  systemModelSubError : String → String → String
  /-- The collaborators of `listModel`. -/
  list : ListEnv

/-- The function `ModelCmd.PreRunE`: the prerequisite check. -/
def PreRunE (env : CmdEnv) : List Event × Option GoError :=
  match env.getMesheryCtl with
  | .error err => ([Event.getMesheryCtl], some err)
  | .ok mctlCfg =>
    match env.isServerRunning mctlCfg.baseMesheryURL with
    | some err =>
      ([Event.getMesheryCtl, Event.isServerRunning mctlCfg.baseMesheryURL], some err)
    | none =>
      match mctlCfg.currentContext with
      | .error err =>
        ([Event.getMesheryCtl, Event.isServerRunning mctlCfg.baseMesheryURL,
          Event.getCurrentContext], some err)
      | .ok ctx =>
        match ctx.validateVersion with
        | some err =>
          ([Event.getMesheryCtl, Event.isServerRunning mctlCfg.baseMesheryURL,
            Event.getCurrentContext, Event.validateVersion], some err)
        | none =>
          ([Event.getMesheryCtl, Event.isServerRunning mctlCfg.baseMesheryURL,
            Event.getCurrentContext, Event.validateVersion], none)

/-- The function `ModelCmd.Args`: the validation of the arguments. -/
def Args (env : CmdEnv) (countFlag : Bool) (args : List String) :
    List Event × Option GoError :=
  if args.length = 0 ∧ ¬ countFlag = true then
    match env.usage with
    | some err => ([Event.usage], some err)
    | none =>
      ([Event.usage], some (GoError.invalidArgument (GoError.new "please provide a subcommand")))
  else
    ([], none)

/-- The message built by `fmt.Sprintf` in `RunE` for an invalid subcommand. -/
def invalidSubcommandMessage (arg0 : String) : String :=
  "'" ++ arg0 ++ "' is an invalid subcommand. Please provide required options from [view]. Use 'mesheryctl model --help' to display usage guide.\n"

/-- The function `ModelCmd.RunE`. -/
def RunE (env : CmdEnv) (countFlag : Bool) (args : List String) :
    List Event × Outcome (Option GoError) :=
  if countFlag then
    match env.getMesheryCtl with
    | .error err =>
      ([Event.getMesheryCtl, Event.fatalln err "error processing config"], Outcome.exited)
    | .ok mctlCfg =>
      let baseUrl := mctlCfg.baseMesheryURL
      let url := baseUrl ++ "/api/meshmodels/models?page=1"
      let r := listModel env.list url countFlag
      (Event.getMesheryCtl :: r.1, Outcome.returned r.2)
  else
    match args with
    | [] => ([], Outcome.panicked)
    | arg0 :: _ =>
      if ¬ IsValidSubcommand availableSubcommands arg0 = true then
        ([], Outcome.returned (some (GoError.new
          (env.systemModelSubError (invalidSubcommandMessage arg0) "model"))))
      else
        match env.getMesheryCtl with
        | .error err =>
          ([Event.getMesheryCtl, Event.fatalln err "error processing config"], Outcome.exited)
        | .ok _ =>
          match env.usage with
          | some err => ([Event.getMesheryCtl, Event.usage], Outcome.returned (some err))
          | none => ([Event.getMesheryCtl, Event.usage], Outcome.returned none)

/-- The dispatcher of the `model` command: `Args`, and `RunE` when `Args` returns nil. -/
def dispatch (env : CmdEnv) (countFlag : Bool) (args : List String) :
    List Event × Outcome (Option GoError) :=
  let a := Args env countFlag args
  match a.2 with
  | some err => (a.1, Outcome.returned (some err))
  | none =>
    let r := RunE env countFlag args
    (a.1 ++ r.1, r.2)

/-! ## `selectModelPrompt` -/

/-- The loop of `selectModelPrompt` that builds the labels of the prompt. -/
def modelNames (modelArray : List Model) : List String :=
  modelArray.foldl
    (fun names model => names ++ [model.DisplayName ++ ", version: " ++ model.Version])
    []

/-- The element `modelArray[i]` of a slice, a panic when `i` is out of range. -/
def index (modelArray : List Model) (i : Int) : Outcome Model :=
  if 0 ≤ i then
    match modelArray[i.toNat]? with
    | some model => Outcome.returned model
    | none => Outcome.panicked
  else Outcome.panicked

/-- The loop `for { i, _, err := prompt.Run(); ... }` of `selectModelPrompt`, from the
`k`-th run of the prompt on, with at most `fuel` runs; `none` when the runs are used up
before the loop is left. `run k items` is the result of the `k`-th run. -/
def promptLoop (run : Nat → List String → Except GoError (Int × String))
    (modelArray : List Model) (items : List String) :
    Nat → Nat → List Event × Option (Outcome Model)
  | 0, _ => ([], none)
  | fuel + 1, k =>
    match run k items with
    | .error _ =>
      let r := promptLoop run modelArray items fuel (k + 1)
      (Event.promptRun "Select a model" items :: r.1, r.2)
    | .ok (i, _) =>
      ([Event.promptRun "Select a model" items], some (index modelArray i))

/-- The function `selectModelPrompt(models)`, with at most `fuel` runs of the prompt. -/
def selectModelPrompt (run : Nat → List String → Except GoError (Int × String))
    (models : List Model) (fuel : Nat) : List Event × Option (Outcome Model) :=
  let modelArray := [] ++ models
  promptLoop run modelArray (modelNames modelArray) fuel 0

/-! ## `outputJson` and `prettifyJson`

The JSON text is the one Go's `encoding/json` produces for the fields of `Model`,
with the escaping of strings depending on the encoder's `escapeHTML` setting:
`json.NewEncoder` followed by `SetEscapeHTML(false)` turns it off, `json.MarshalIndent`
has it on.  Strings are sequences of Unicode characters here, so the replacement of
invalid UTF-8 by the replacement character has no counterpart. -/

/-- The hexadecimal digits used in `\u00XX` escapes. -/
def hex : List Char := "0123456789abcdef".data

/-- The hexadecimal digit of a number below 16. -/
def hexDigit (n : Nat) : Char := hex.getD n '0'

/-- The ASCII characters a JSON string holds unescaped: all from the space on
but the double quote and the backslash. -/
def safeSet (c : Char) : Bool :=
  decide (0x20 ≤ c.toNat) && decide (c.toNat < 0x80) && c != '\"' && c != '\\'

/-- The ASCII characters a JSON string holds unescaped when HTML is escaped: the
safe ones but `<`, `>` and `&`. -/
def htmlSafeSet (c : Char) : Bool :=
  safeSet c && c != '<' && c != '>' && c != '&'

/-- The JSON text of one character of a string. -/
def appendChar (escapeHTML : Bool) (c : Char) : List Char :=
  if c.toNat < 0x80 then
    if htmlSafeSet c || (!escapeHTML && safeSet c) then [c]
    else if c = '\\' ∨ c = '\"' then ['\\', c]
    else if c = Char.ofNat 8 then ['\\', 'b']
    else if c = Char.ofNat 12 then ['\\', 'f']
    else if c = '\n' then ['\\', 'n']
    else if c = '\r' then ['\\', 'r']
    else if c = '\t' then ['\\', 't']
    else ['\\', 'u', '0', '0', hexDigit (c.toNat / 16), hexDigit (c.toNat % 16)]
  else if c = Char.ofNat 0x2028 ∨ c = Char.ofNat 0x2029 then
    ['\\', 'u', '2', '0', '2', hexDigit (c.toNat % 16)]
  else [c]

/-- The JSON text of a string: the quoted, escaped characters. -/
def appendString (escapeHTML : Bool) (src : String) : List Char :=
  ['\"'] ++ src.data.flatMap (appendChar escapeHTML) ++ ['\"']

/-- The JSON text of a model, indented by two spaces. -/
def encodeModel (escapeHTML : Bool) (model : Model) : String :=
  String.mk (
    "\x7b\n  \"name\": ".data ++ appendString escapeHTML model.Name ++
    ",\n  \"display_name\": ".data ++ appendString escapeHTML model.DisplayName ++
    ",\n  \"version\": ".data ++ appendString escapeHTML model.Version ++
    ",\n  \"category\": \x7b\n    \"name\": ".data ++
      appendString escapeHTML model.Category.Name ++
    "\n  \x7d\n\x7d".data)

/-- The collaborators of `outputJson`. -/
structure JsonEnv where
  /-- The error of `enc.Encode(model)`, from the encoding or from the writing to `os.Stdout`. -/
  encode : Model → Option GoError
  /-- The error of `json.MarshalIndent(model, "", "  ")`. -/
  marshalIndent : Model → Option GoError

/-- The function `prettifyJson(model)`: an encoder on `os.Stdout` with HTML escaping off
and two spaces of indentation; `Encode` ends its output with a newline. -/
def prettifyJson (env : JsonEnv) (model : Model) : List Event × Option GoError :=
  match env.encode model with
  | some err => ([Event.encoderEncode model], some err)
  | none =>
    ([Event.encoderEncode model, Event.stdoutWrite (encodeModel false model ++ "\n")], none)

/-- The function `outputJson(model)`. -/
def outputJson (env : JsonEnv) (model : Model) : List Event × Option GoError :=
  let p := prettifyJson env model
  match p.2 with
  | some _ =>
    match env.marshalIndent model with
    | some err =>
      (p.1 ++ [Event.marshalIndent model],
        some (GoError.wrap err "failed to format output in JSON"))
    | none =>
      (p.1 ++ [Event.marshalIndent model, Event.fmtPrint (encodeModel true model)], none)
  | none => (p.1, none)

/-- The texts a trace sends to the standard output as JSON, in order. -/
def printed : List Event → List String
  | [] => []
  | Event.stdoutWrite text :: t => text :: printed t
  | Event.fmtPrint text :: t => text :: printed t
  | _ :: t => printed t

/-- The number of occurrences of a character in a string. -/
def occurrences (c : Char) (s : String) : Nat := s.data.count c

/-- The number of occurrences of a character in the string fields of a model. -/
def fieldOccurrences (c : Char) (model : Model) : Nat :=
  occurrences c model.Name + occurrences c model.DisplayName +
    occurrences c model.Version + occurrences c model.Category.Name

/-- A response whose only model has an empty display name, with a total count of 2. -/
def unnamedResponse : MeshmodelsAPIResponse :=
  ⟨2, [⟨"b", "", "v2", ⟨"c2"⟩⟩]⟩

/-- An environment in which step `stage` of `listModel` fails with `err` (0 building the
request, 1 sending it, 2 reading the body, 3 decoding) and the other steps succeed. -/
def failingEnv (stage : Nat) (err : GoError) : ListEnv where
  newRequest := fun m u => if stage = 0 then .error err else .ok ⟨m, u⟩
  makeRequest := fun _ => if stage = 1 then .error err else .ok ⟨"body"⟩
  readAll := fun _ => if stage = 2 then .error err else .ok "data"
  unmarshal := fun _ => if stage = 3 then .error err else .ok exampleResponse
  pageChanged := false
  handlePagination := fun _ _ _ _ => none

/-- An environment of the command in which the configuration loads, the server runs,
the version validates, `cmd.Usage()` returns `usage`, and `listModel` decodes the spec's
example. -/
def cmdEnv (usage : Option GoError) : CmdEnv where
  getMesheryCtl := .ok ⟨"http://localhost:9081", .ok ⟨none⟩⟩
  isServerRunning := fun _ => none
  usage := usage
  systemModelSubError := fun msg cmd => cmd ++ ": " ++ msg
  list := okEnv exampleResponse false none

/-- An environment of the command whose four prerequisite steps give the stated results. -/
def prereqEnv (config server context version : Option GoError) : CmdEnv where
  getMesheryCtl :=
    match config with
    | some err => .error err
    | none =>
      .ok ⟨"http://localhost:9081",
        match context with
        | some err => .error err
        | none => .ok ⟨version⟩⟩
  isServerRunning := fun _ => server
  usage := none
  systemModelSubError := fun msg cmd => cmd ++ ": " ++ msg
  list := okEnv exampleResponse false none

/-- An environment of `outputJson` in which `Encode` and `MarshalIndent` give the stated
results for every model. -/
def jsonEnv (encode marshalIndent : Option GoError) : JsonEnv where
  encode := fun _ => encode
  marshalIndent := fun _ => marshalIndent

/-- A model whose name holds an ampersand. -/
def ampersandModel : Model := ⟨"a&b", "A", "v1", ⟨"c1"⟩⟩

/-- A prompt whose first run fails and whose later runs select the item at index 1. -/
def secondTry : Nat → List String → Except GoError (Int × String) :=
  fun k items => if k = 0 then .error (GoError.new "^C") else .ok (1, items.getD 1 "")

/-- The rows of the table in the spec's words: the models with a non-empty display
name, in order, each as the triple of name, category name and version. -/
def rowsOf (models : List Model) : List (List String) :=
  (models.filter (fun model => decide (model.DisplayName ≠ ""))).map
    (fun model => [model.Name, model.Category.Name, model.Version])

/-! ## Lemmas -/

theorem goLen_pos_iff (s : String) : goLen s > 0 ↔ s ≠ "" := by
  rcases s with ⟨cs⟩
  cases cs with
  | nil => simp [goLen, String.utf8ByteSize, String.utf8ByteSize.go]
  | cons c cs =>
    have hc := Char.utf8Size_pos c
    have hne : (⟨c :: cs⟩ : String) ≠ "" := by
      intro h
      have := congrArg String.data h
      simp at this
    simp only [goLen, String.utf8ByteSize, String.utf8ByteSize.go, gt_iff_lt, ne_eq, hne,
      not_false_eq_true, iff_true]
    omega

theorem foldl_rows (models : List Model) (acc : List (List String)) :
    models.foldl
      (fun rows model =>
        if goLen model.DisplayName > 0 then
          rows ++ [[model.Name, model.Category.Name, model.Version]]
        else rows)
      acc = acc ++ rowsOf models := by
  induction models generalizing acc with
  | nil => simp [rowsOf]
  | cons m ms ih =>
    rw [List.foldl_cons, ih]
    by_cases h : m.DisplayName = ""
    · have h0 : goLen "" = 0 := by decide
      simp [rowsOf, h0, h]
    · have h0 : goLen m.DisplayName > 0 := (goLen_pos_iff _).2 h
      simp [rowsOf, h0, h]

theorem buildRows_eq (models : List Model) : buildRows models = rowsOf models := by
  simp [buildRows, foldl_rows]

theorem rowsOf_eq_nil_iff (models : List Model) :
    rowsOf models = [] ↔ ∀ m ∈ models, m.DisplayName = "" := by
  simp [rowsOf, List.filter_eq_nil_iff]

theorem listModel_decoded (env : ListEnv) (url : String) (displayCountOnly : Bool)
    (req : Request) (resp : Response) (data : String) (mr : MeshmodelsAPIResponse)
    (hreq : env.newRequest "GET" url = .ok req) (hresp : env.makeRequest req = .ok resp)
    (hdata : env.readAll resp = .ok data) (hdec : env.unmarshal data = .ok mr) :
    listModel env url displayCountOnly =
      ([Event.newRequest "GET" url, Event.makeRequest req, Event.readAll resp,
        Event.unmarshal data] ++ (present env mr displayCountOnly).1 ++
        [Event.bodyClose resp], (present env mr displayCountOnly).2) := by
  simp [listModel, readAndPresent, hreq, hresp, hdata, hdec]

theorem tablesOf_append (s t : List Event) : tablesOf (s ++ t) = tablesOf s ++ tablesOf t := by
  induction s with
  | nil => rfl
  | cons e s ih => cases e <;> simp [tablesOf, ih]

theorem present_of_rows_nil (env : ListEnv) (mr : MeshmodelsAPIResponse)
    (displayCountOnly : Bool) (h : ∀ m ∈ mr.Models, m.DisplayName = "") :
    present env mr displayCountOnly = ([Event.whiteBoardPrintln "No model(s) found"], none) := by
  have h0 : buildRows mr.Models = [] := by
    rw [buildRows_eq]; exact (rowsOf_eq_nil_iff _).2 h
  simp [present, h0]

theorem present_of_rows_ne_nil (env : ListEnv) (mr : MeshmodelsAPIResponse)
    (displayCountOnly : Bool) (h : ∃ m ∈ mr.Models, m.DisplayName ≠ "") :
    present env mr displayCountOnly =
      if displayCountOnly then ([Event.displayCount "models" mr.Count], none)
      else if env.pageChanged then
        ([Event.displayCount "models" mr.Count, Event.printToTable header (rowsOf mr.Models)],
          none)
      else
        ([Event.displayCount "models" mr.Count,
          Event.handlePagination 25 "models" (rowsOf mr.Models) header] ++
          (match env.handlePagination 25 "models" (rowsOf mr.Models) header with
           | some err => [Event.logError err]
           | none => []),
         env.handlePagination 25 "models" (rowsOf mr.Models) header) := by
  have h0 : ¬ (rowsOf mr.Models).length = 0 := by
    rw [List.length_eq_zero, rowsOf_eq_nil_iff]
    push_neg
    exact h
  unfold present
  simp only [buildRows_eq, h0, if_false, maxRowsPerPage]
  by_cases hc : displayCountOnly = true
  · simp [hc]
  · by_cases hp : env.pageChanged = true
    · simp [hc, hp]
    · simp only [hc, hp, if_false]
      cases env.handlePagination 25 "models" (rowsOf mr.Models) header <;> simp

theorem tablesOf_present (env : ListEnv) (mr : MeshmodelsAPIResponse)
    (displayCountOnly : Bool) :
    ∀ rows ∈ tablesOf (present env mr displayCountOnly).1, rows = rowsOf mr.Models := by
  by_cases h : ∀ m ∈ mr.Models, m.DisplayName = ""
  · rw [present_of_rows_nil env mr displayCountOnly h]
    simp [tablesOf]
  · push_neg at h
    rw [present_of_rows_ne_nil env mr displayCountOnly h]
    by_cases hc : displayCountOnly = true
    · simp [hc, tablesOf]
    · by_cases hp : env.pageChanged = true
      · simp [hc, hp, tablesOf]
      · simp only [hc, hp, if_false]
        cases env.handlePagination 25 "models" (rowsOf mr.Models) header <;> simp [tablesOf]

theorem tablesOf_present_eq (env : ListEnv) (mr : MeshmodelsAPIResponse)
    (displayCountOnly : Bool) :
    tablesOf (present env mr displayCountOnly).1 =
      if displayCountOnly = true ∨ rowsOf mr.Models = [] then [] else [rowsOf mr.Models] := by
  by_cases h : ∀ m ∈ mr.Models, m.DisplayName = ""
  · rw [present_of_rows_nil env mr displayCountOnly h]
    simp [tablesOf, (rowsOf_eq_nil_iff mr.Models).2 h]
  · have hne : ¬ rowsOf mr.Models = [] := fun h0 => h ((rowsOf_eq_nil_iff mr.Models).1 h0)
    push_neg at h
    rw [present_of_rows_ne_nil env mr displayCountOnly h]
    by_cases hc : displayCountOnly = true
    · simp [hc, tablesOf]
    · by_cases hp : env.pageChanged = true
      · simp [hc, hp, hne, tablesOf]
      · simp only [hc, hp, hne, if_false, or_self]
        cases env.handlePagination 25 "models" (rowsOf mr.Models) header <;> simp [tablesOf]

theorem tablesOf_listModel (env : ListEnv) (url : String) (displayCountOnly : Bool)
    (req : Request) (resp : Response) (data : String) (mr : MeshmodelsAPIResponse)
    (hreq : env.newRequest "GET" url = .ok req) (hresp : env.makeRequest req = .ok resp)
    (hdata : env.readAll resp = .ok data) (hdec : env.unmarshal data = .ok mr) :
    tablesOf (listModel env url displayCountOnly).1 =
      tablesOf (present env mr displayCountOnly).1 := by
  rw [listModel_decoded env url displayCountOnly req resp data mr hreq hresp hdata hdec]
  rw [tablesOf_append, tablesOf_append]
  simp [tablesOf]

/-! ## The list handler -/

/-- C1: when the request and the decoding succeed, the rows `listModel` builds from the
decoded response are exactly the models with a non-empty display name, in the order of
the response, each as `[Name, Category.Name, Version]`; their number is the number of
models with a non-empty display name; and `listModel` renders exactly these rows: unless
count-only is set or there is no such model, it renders one table (through `PrintToTable`
or `HandlePagination`) and that table holds exactly these rows; otherwise it renders no
table. -/
theorem listModel_rows (env : ListEnv) (url : String) (displayCountOnly : Bool)
    (req : Request) (resp : Response) (data : String) (mr : MeshmodelsAPIResponse)
    (hreq : env.newRequest "GET" url = .ok req) (hresp : env.makeRequest req = .ok resp)
    (hdata : env.readAll resp = .ok data) (hdec : env.unmarshal data = .ok mr) :
    buildRows mr.Models =
        (mr.Models.filter (fun model => decide (model.DisplayName ≠ ""))).map
          (fun model => [model.Name, model.Category.Name, model.Version]) ∧
      (buildRows mr.Models).length =
        mr.Models.countP (fun model => decide (model.DisplayName ≠ "")) ∧
      tablesOf (listModel env url displayCountOnly).1 =
        (if displayCountOnly = true ∨
            (mr.Models.filter (fun model => decide (model.DisplayName ≠ ""))).map
              (fun model => [model.Name, model.Category.Name, model.Version]) = []
         then []
         else [(mr.Models.filter (fun model => decide (model.DisplayName ≠ ""))).map
              (fun model => [model.Name, model.Category.Name, model.Version])]) ∧
      ∀ rows ∈ tablesOf (listModel env url displayCountOnly).1,
        rows = (mr.Models.filter (fun model => decide (model.DisplayName ≠ ""))).map
            (fun model => [model.Name, model.Category.Name, model.Version]) ∧
          rows.length = mr.Models.countP (fun model => decide (model.DisplayName ≠ "")) := by
  have hlen : (rowsOf mr.Models).length =
      mr.Models.countP (fun model => decide (model.DisplayName ≠ "")) := by
    rw [rowsOf, List.length_map, List.countP_eq_length_filter]
  refine ⟨buildRows_eq _, ?_, ?_, ?_⟩
  · rw [buildRows_eq, hlen]
  · rw [tablesOf_listModel env url displayCountOnly req resp data mr hreq hresp hdata hdec]
    exact tablesOf_present_eq env mr displayCountOnly
  · intro rows hrows
    rw [tablesOf_listModel env url displayCountOnly req resp data mr hreq hresp hdata hdec]
      at hrows
    have h := tablesOf_present env mr displayCountOnly rows hrows
    subst h
    exact ⟨rfl, hlen⟩

/-- C1, at the spec's example: the response with the models (a, A, v1, c1) and
(b, "", v2, c2) gives the single row [a, c1, v1], and `listModel` renders one table,
holding that row. -/
theorem listModel_rows_witness :
    buildRows exampleResponse.Models = [["a", "c1", "v1"]] ∧
      (buildRows exampleResponse.Models).length = 1 ∧
      tablesOf (listModel (okEnv exampleResponse true none) "u" false).1 =
        [[["a", "c1", "v1"]]] :=
  have h := listModel_rows (okEnv exampleResponse true none) "u" false ⟨"GET", "u"⟩ ⟨"body"⟩
    "data" exampleResponse rfl rfl rfl rfl
  ⟨h.1, h.2.1, h.2.2.1.trans (by decide)⟩

/-- C2, as stated, fails: with the count-only flag set and a successfully decoded
response whose models all have an empty display name (total count 2), `listModel` prints
the "no models found" notice and returns; the count is not printed. -/
theorem listModel_countOnly_counterexample :
    listModel (okEnv unnamedResponse false none) "u" true =
        ([Event.newRequest "GET" "u", Event.makeRequest ⟨"GET", "u"⟩,
          Event.readAll ⟨"body"⟩, Event.unmarshal "data",
          Event.whiteBoardPrintln "No model(s) found", Event.bodyClose ⟨"body"⟩], none) ∧
      (listModel (okEnv unnamedResponse false none) "u" true).1.count
        (Event.displayCount "models" unnamedResponse.Count) = 0 := by
  decide

/-- C2, amended: with the count-only flag set and the request and the decoding
succeeding, `listModel` renders no table (neither `PrintToTable` nor `HandlePagination`
is called) and returns nil, for every response; when at least one model has a non-empty
display name it prints the total count, the `Count` field of the response, and nothing
else; when every model has an empty display name it prints the "no models found" notice
instead, and the count is not printed. -/
theorem listModel_countOnly (env : ListEnv) (url : String)
    (req : Request) (resp : Response) (data : String) (mr : MeshmodelsAPIResponse)
    (hreq : env.newRequest "GET" url = .ok req) (hresp : env.makeRequest req = .ok resp)
    (hdata : env.readAll resp = .ok data) (hdec : env.unmarshal data = .ok mr) :
    tablesOf (listModel env url true).1 = [] ∧ (listModel env url true).2 = none ∧
      ((∃ m ∈ mr.Models, m.DisplayName ≠ "") →
        listModel env url true =
          ([Event.newRequest "GET" url, Event.makeRequest req, Event.readAll resp,
            Event.unmarshal data, Event.displayCount "models" mr.Count,
            Event.bodyClose resp], none)) ∧
      ((∀ m ∈ mr.Models, m.DisplayName = "") →
        listModel env url true =
            ([Event.newRequest "GET" url, Event.makeRequest req, Event.readAll resp,
              Event.unmarshal data, Event.whiteBoardPrintln "No model(s) found",
              Event.bodyClose resp], none) ∧
          ∀ what count, Event.displayCount what count ∉ (listModel env url true).1) := by
  rw [tablesOf_listModel env url true req resp data mr hreq hresp hdata hdec,
    listModel_decoded env url true req resp data mr hreq hresp hdata hdec]
  by_cases h : ∀ m ∈ mr.Models, m.DisplayName = ""
  · rw [present_of_rows_nil env mr true h]
    refine ⟨by simp [tablesOf], rfl, ?_, ?_⟩
    · rintro ⟨m, hm, hne⟩
      exact absurd (h m hm) hne
    · intro _
      refine ⟨rfl, ?_⟩
      intro what count
      simp
  · have h0 := h
    push_neg at h
    rw [present_of_rows_ne_nil env mr true h]
    refine ⟨by simp [tablesOf], by simp, ?_, ?_⟩
    · intro _
      simp
    · intro hall
      exact absurd hall h0

/-- C2, amended, at the spec's example, where the count 2 is printed and no table, and at
a response with count 2 whose only model has an empty display name, where the notice is
printed and the count is not. -/
theorem listModel_countOnly_witness :
    tablesOf (listModel (okEnv exampleResponse false none) "u" true).1 = [] ∧
      (listModel (okEnv exampleResponse false none) "u" true).2 = none ∧
      listModel (okEnv exampleResponse false none) "u" true =
        ([Event.newRequest "GET" "u", Event.makeRequest ⟨"GET", "u"⟩,
          Event.readAll ⟨"body"⟩, Event.unmarshal "data", Event.displayCount "models" 2,
          Event.bodyClose ⟨"body"⟩], none) ∧
      listModel (okEnv unnamedResponse true none) "u" true =
        ([Event.newRequest "GET" "u", Event.makeRequest ⟨"GET", "u"⟩,
          Event.readAll ⟨"body"⟩, Event.unmarshal "data",
          Event.whiteBoardPrintln "No model(s) found", Event.bodyClose ⟨"body"⟩], none) :=
  have h := listModel_countOnly (okEnv exampleResponse false none) "u" ⟨"GET", "u"⟩ ⟨"body"⟩
    "data" exampleResponse rfl rfl rfl rfl
  have h2 := listModel_countOnly (okEnv unnamedResponse true none) "u" ⟨"GET", "u"⟩ ⟨"body"⟩
    "data" unnamedResponse rfl rfl rfl rfl
  ⟨h.1, h.2.1, h.2.2.1 ⟨⟨"a", "A", "v1", ⟨"c1"⟩⟩, by decide, by decide⟩,
    (h2.2.2.2 (by decide)).1⟩

/-- C3: when the request and the decoding succeed and no model of the response has a
non-empty display name (an empty list of models included), `listModel` returns nil,
prints the "no models found" notice exactly once, and prints neither the count nor a
table, whatever the count-only flag, the page flag and the `Count` field are. -/
theorem listModel_no_models (env : ListEnv) (url : String) (displayCountOnly : Bool)
    (req : Request) (resp : Response) (data : String) (mr : MeshmodelsAPIResponse)
    (hreq : env.newRequest "GET" url = .ok req) (hresp : env.makeRequest req = .ok resp)
    (hdata : env.readAll resp = .ok data) (hdec : env.unmarshal data = .ok mr)
    (hempty : ∀ m ∈ mr.Models, m.DisplayName = "") :
    listModel env url displayCountOnly =
        ([Event.newRequest "GET" url, Event.makeRequest req, Event.readAll resp,
          Event.unmarshal data, Event.whiteBoardPrintln "No model(s) found",
          Event.bodyClose resp], none) ∧
      (listModel env url displayCountOnly).1.count
        (Event.whiteBoardPrintln "No model(s) found") = 1 ∧
      (∀ what count, Event.displayCount what count ∉ (listModel env url displayCountOnly).1) ∧
      tablesOf (listModel env url displayCountOnly).1 = [] := by
  rw [listModel_decoded env url displayCountOnly req resp data mr hreq hresp hdata hdec,
    present_of_rows_nil env mr displayCountOnly hempty]
  refine ⟨rfl, ?_, ?_, ?_⟩
  · simp [List.count_cons]
  · intro what count
    simp
  · simp [tablesOf]

/-- C3, at a response with count 2 whose only model has an empty display name, with the
count-only flag set, and at a response without models. -/
theorem listModel_no_models_witness :
    (listModel (okEnv unnamedResponse true none) "u" true).2 = none ∧
      (listModel (okEnv ⟨0, []⟩ false none) "u" false).1 =
        [Event.newRequest "GET" "u", Event.makeRequest ⟨"GET", "u"⟩,
          Event.readAll ⟨"body"⟩, Event.unmarshal "data",
          Event.whiteBoardPrintln "No model(s) found", Event.bodyClose ⟨"body"⟩] :=
  ⟨congrArg Prod.snd (listModel_no_models (okEnv unnamedResponse true none) "u" true
      ⟨"GET", "u"⟩ ⟨"body"⟩ "data" unnamedResponse rfl rfl rfl rfl (by decide)).1,
   congrArg Prod.fst (listModel_no_models (okEnv ⟨0, []⟩ false none) "u" false
      ⟨"GET", "u"⟩ ⟨"body"⟩ "data" ⟨0, []⟩ rfl rfl rfl rfl (by decide)).1⟩

/-- C4: when the request and the decoding succeed, at least one model has a non-empty
display name and count-only is unset: with `--page` set, `listModel` calls `PrintToTable`
once, with the header [Model, Category, Version] and all the filtered rows, never calls
`HandlePagination`, and returns nil; with `--page` not set it calls `HandlePagination`
once, with page size 25, the same rows and header, never calls `PrintToTable`, logs and
returns the error of `HandlePagination` if there is one, and returns nil otherwise. -/
theorem listModel_tables (env : ListEnv) (url : String)
    (req : Request) (resp : Response) (data : String) (mr : MeshmodelsAPIResponse)
    (hreq : env.newRequest "GET" url = .ok req) (hresp : env.makeRequest req = .ok resp)
    (hdata : env.readAll resp = .ok data) (hdec : env.unmarshal data = .ok mr)
    (hrows : ∃ m ∈ mr.Models, m.DisplayName ≠ "") :
    (env.pageChanged = true →
        listModel env url false =
          ([Event.newRequest "GET" url, Event.makeRequest req, Event.readAll resp,
            Event.unmarshal data, Event.displayCount "models" mr.Count,
            Event.printToTable ["Model", "Category", "Version"] (rowsOf mr.Models),
            Event.bodyClose resp], none)) ∧
      (env.pageChanged = false →
        listModel env url false =
          ([Event.newRequest "GET" url, Event.makeRequest req, Event.readAll resp,
            Event.unmarshal data, Event.displayCount "models" mr.Count,
            Event.handlePagination 25 "models" (rowsOf mr.Models)
              ["Model", "Category", "Version"]] ++
            (match env.handlePagination 25 "models" (rowsOf mr.Models)
                ["Model", "Category", "Version"] with
             | some err => [Event.logError err]
             | none => []) ++
            [Event.bodyClose resp],
           env.handlePagination 25 "models" (rowsOf mr.Models)
             ["Model", "Category", "Version"])) := by
  rw [listModel_decoded env url false req resp data mr hreq hresp hdata hdec,
    present_of_rows_ne_nil env mr false hrows]
  constructor
  · intro hp
    simp [hp, header]
  · intro hp
    simp [hp, header]

/-- C4, at the spec's example: one table with the row [a, c1, v1] when `--page` is set;
one call of `HandlePagination`, whose error is logged and returned, when it is not. -/
theorem listModel_tables_witness :
    listModel (okEnv exampleResponse true none) "u" false =
        ([Event.newRequest "GET" "u", Event.makeRequest ⟨"GET", "u"⟩,
          Event.readAll ⟨"body"⟩, Event.unmarshal "data", Event.displayCount "models" 2,
          Event.printToTable ["Model", "Category", "Version"] [["a", "c1", "v1"]],
          Event.bodyClose ⟨"body"⟩], none) ∧
      listModel (okEnv exampleResponse false (some (GoError.new "eof"))) "u" false =
        ([Event.newRequest "GET" "u", Event.makeRequest ⟨"GET", "u"⟩,
          Event.readAll ⟨"body"⟩, Event.unmarshal "data", Event.displayCount "models" 2,
          Event.handlePagination 25 "models" [["a", "c1", "v1"]]
            ["Model", "Category", "Version"],
          Event.logError (GoError.new "eof"), Event.bodyClose ⟨"body"⟩],
         some (GoError.new "eof")) :=
  ⟨(listModel_tables (okEnv exampleResponse true none) "u" ⟨"GET", "u"⟩ ⟨"body"⟩ "data"
      exampleResponse rfl rfl rfl rfl ⟨⟨"a", "A", "v1", ⟨"c1"⟩⟩, by decide, by decide⟩).1 rfl,
   (listModel_tables (okEnv exampleResponse false (some (GoError.new "eof"))) "u"
      ⟨"GET", "u"⟩ ⟨"body"⟩ "data" exampleResponse rfl rfl rfl rfl
      ⟨⟨"a", "A", "v1", ⟨"c1"⟩⟩, by decide, by decide⟩).2 rfl⟩

/-- C6: when building the request, sending it, reading the body or decoding fails,
`listModel` logs and returns exactly the error of the first failing step, runs none of
the later steps and prints no notice, count or table (the body is closed once the request
was sent); when all four steps succeed it returns nil unless `HandlePagination` is
called and fails, and then it returns the error of `HandlePagination`. -/
theorem listModel_errors (env : ListEnv) (url : String) (displayCountOnly : Bool) :
    (∀ err, env.newRequest "GET" url = .error err →
        listModel env url displayCountOnly =
          ([Event.newRequest "GET" url, Event.logError err], some err)) ∧
      (∀ req err, env.newRequest "GET" url = .ok req → env.makeRequest req = .error err →
        listModel env url displayCountOnly =
          ([Event.newRequest "GET" url, Event.makeRequest req, Event.logError err],
            some err)) ∧
      (∀ req resp err, env.newRequest "GET" url = .ok req → env.makeRequest req = .ok resp →
        env.readAll resp = .error err →
        listModel env url displayCountOnly =
          ([Event.newRequest "GET" url, Event.makeRequest req, Event.readAll resp,
            Event.logError err, Event.bodyClose resp], some err)) ∧
      (∀ req resp data err, env.newRequest "GET" url = .ok req →
        env.makeRequest req = .ok resp → env.readAll resp = .ok data →
        env.unmarshal data = .error err →
        listModel env url displayCountOnly =
          ([Event.newRequest "GET" url, Event.makeRequest req, Event.readAll resp,
            Event.unmarshal data, Event.logError err, Event.bodyClose resp], some err)) ∧
      (∀ req resp data mr, env.newRequest "GET" url = .ok req →
        env.makeRequest req = .ok resp → env.readAll resp = .ok data →
        env.unmarshal data = .ok mr →
        (listModel env url displayCountOnly).2 = none ∨
          (∃ err, env.handlePagination 25 "models" (rowsOf mr.Models)
              ["Model", "Category", "Version"] = some err ∧
            (listModel env url displayCountOnly).2 = some err ∧
            Event.handlePagination 25 "models" (rowsOf mr.Models)
              ["Model", "Category", "Version"] ∈ (listModel env url displayCountOnly).1)) := by
  refine ⟨?_, ?_, ?_, ?_, ?_⟩
  · intro err h
    simp [listModel, h]
  · intro req err h1 h2
    simp [listModel, h1, h2]
  · intro req resp err h1 h2 h3
    simp [listModel, readAndPresent, h1, h2, h3]
  · intro req resp data err h1 h2 h3 h4
    simp [listModel, readAndPresent, h1, h2, h3, h4]
  · intro req resp data mr h1 h2 h3 h4
    rw [listModel_decoded env url displayCountOnly req resp data mr h1 h2 h3 h4]
    by_cases h : ∀ m ∈ mr.Models, m.DisplayName = ""
    · rw [present_of_rows_nil env mr displayCountOnly h]
      exact Or.inl rfl
    · push_neg at h
      rw [present_of_rows_ne_nil env mr displayCountOnly h]
      by_cases hc : displayCountOnly = true
      · simp [hc]
      · by_cases hp : env.pageChanged = true
        · simp [hc, hp]
        · simp only [hc, hp, if_false, header]
          cases hh : env.handlePagination 25 "models" (rowsOf mr.Models)
              ["Model", "Category", "Version"] with
          | none => exact Or.inl rfl
          | some err => exact Or.inr ⟨err, rfl, rfl, by simp⟩

/-- C6, at a failure of each of the four steps and at a failure of `HandlePagination`. -/
theorem listModel_errors_witness :
    listModel (failingEnv 0 (GoError.new "bad url")) "u" false =
        ([Event.newRequest "GET" "u", Event.logError (GoError.new "bad url")],
          some (GoError.new "bad url")) ∧
      listModel (failingEnv 1 (GoError.new "refused")) "u" false =
        ([Event.newRequest "GET" "u", Event.makeRequest ⟨"GET", "u"⟩,
          Event.logError (GoError.new "refused")], some (GoError.new "refused")) ∧
      listModel (failingEnv 2 (GoError.new "reset")) "u" true =
        ([Event.newRequest "GET" "u", Event.makeRequest ⟨"GET", "u"⟩,
          Event.readAll ⟨"body"⟩, Event.logError (GoError.new "reset"),
          Event.bodyClose ⟨"body"⟩], some (GoError.new "reset")) ∧
      listModel (failingEnv 3 (GoError.new "syntax")) "u" true =
        ([Event.newRequest "GET" "u", Event.makeRequest ⟨"GET", "u"⟩,
          Event.readAll ⟨"body"⟩, Event.unmarshal "data",
          Event.logError (GoError.new "syntax"), Event.bodyClose ⟨"body"⟩],
          some (GoError.new "syntax")) :=
  ⟨(listModel_errors (failingEnv 0 (GoError.new "bad url")) "u" false).1 _ rfl,
   (listModel_errors (failingEnv 1 (GoError.new "refused")) "u" false).2.1 _ _ rfl rfl,
   (listModel_errors (failingEnv 2 (GoError.new "reset")) "u" true).2.2.1 _ _ _ rfl rfl rfl,
   (listModel_errors (failingEnv 3 (GoError.new "syntax")) "u" true).2.2.2.1 _ _ _ _
     rfl rfl rfl rfl⟩

/-! ## The command dispatcher -/

/-- C5, as stated, fails: without arguments and without the count flag, when printing
the usage fails the dispatcher returns the error of `cmd.Usage()`, not the
invalid-argument error. -/
theorem dispatch_counterexample :
    dispatch (cmdEnv (some (GoError.new "broken pipe"))) false [] =
        ([Event.usage], Outcome.returned (some (GoError.new "broken pipe"))) ∧
      (dispatch (cmdEnv (some (GoError.new "broken pipe"))) false []).2 ≠
        Outcome.returned (some
          (GoError.invalidArgument (GoError.new "please provide a subcommand"))) := by
  decide

/-- C5, amended: the dispatcher (`Args`, then `RunE`) returns nil only if the count flag
is set or the first argument is one of list, view, search, import. Without arguments and
without the count flag it prints the usage and returns the invalid-argument error
"please provide a subcommand", or the error of `cmd.Usage()` when printing the usage
fails. Without the count flag and with a first argument that is not recognized it returns
the invalid-subcommand error, before any other step. With the count flag set `Args`
accepts every argument list and the dispatcher does not depend on the arguments. -/
theorem dispatch_spec (env : CmdEnv) (args : List String) :
    (∀ countFlag, (dispatch env countFlag args).2 = Outcome.returned none →
        countFlag = true ∨
          ∃ arg0 rest, args = arg0 :: rest ∧ arg0 ∈ ["list", "view", "search", "import"]) ∧
      dispatch env false [] =
        ([Event.usage], Outcome.returned (some
          (match env.usage with
           | some err => err
           | none => GoError.invalidArgument (GoError.new "please provide a subcommand")))) ∧
      (∀ arg0 rest, arg0 ∉ ["list", "view", "search", "import"] →
        dispatch env false (arg0 :: rest) =
          ([], Outcome.returned (some (GoError.new
            (env.systemModelSubError (invalidSubcommandMessage arg0) "model"))))) ∧
      Args env true args = ([], none) ∧
      dispatch env true args = dispatch env true [] := by
  refine ⟨?_, ?_, ?_, ?_, ?_⟩
  · intro countFlag h
    cases countFlag with
    | true => exact Or.inl rfl
    | false =>
      right
      cases args with
      | nil =>
        exfalso
        cases hu : env.usage <;> simp [dispatch, Args, hu] at h
      | cons arg0 rest =>
        refine ⟨arg0, rest, rfl, ?_⟩
        by_contra hmem
        have hv : IsValidSubcommand availableSubcommands arg0 = false := by
          simpa [IsValidSubcommand, availableSubcommands] using hmem
        simp [dispatch, Args, RunE, hv] at h
  · cases hu : env.usage <;> simp [dispatch, Args, hu]
  · intro arg0 rest hmem
    have hv : IsValidSubcommand availableSubcommands arg0 = false := by
      simpa [IsValidSubcommand, availableSubcommands] using hmem
    simp [dispatch, Args, RunE, hv]
  · simp [Args]
  · simp [dispatch, Args, RunE]

/-- C5, amended, at concrete inputs: no argument and no flag; the unknown subcommand
`delete`; the count flag with the same unknown subcommand. -/
theorem dispatch_spec_witness :
    dispatch (cmdEnv none) false [] =
        ([Event.usage], Outcome.returned (some
          (GoError.invalidArgument (GoError.new "please provide a subcommand")))) ∧
      dispatch (cmdEnv none) false ["delete"] =
        ([], Outcome.returned (some (GoError.new
          ((cmdEnv none).systemModelSubError (invalidSubcommandMessage "delete") "model")))) ∧
      dispatch (cmdEnv none) true ["delete"] = dispatch (cmdEnv none) true [] :=
  ⟨(dispatch_spec (cmdEnv none) []).2.1,
   (dispatch_spec (cmdEnv none) []).2.2.1 "delete" [] (by decide),
   (dispatch_spec (cmdEnv none) ["delete"]).2.2.2.2⟩

/-- C10: `PreRunE` returns nil if and only if the configuration loads, the server at the
configured base URL runs, the current context is obtained and the version validates;
otherwise it returns exactly the error of the first of these four steps that fails, and
performs none of the later steps. -/
theorem PreRunE_spec (env : CmdEnv) :
    ((PreRunE env).2 = none ↔
        ∃ cfg ctx, env.getMesheryCtl = .ok cfg ∧
          env.isServerRunning cfg.baseMesheryURL = none ∧
          cfg.currentContext = .ok ctx ∧ ctx.validateVersion = none) ∧
      (∀ err, env.getMesheryCtl = .error err →
        PreRunE env = ([Event.getMesheryCtl], some err)) ∧
      (∀ cfg err, env.getMesheryCtl = .ok cfg →
        env.isServerRunning cfg.baseMesheryURL = some err →
        PreRunE env =
          ([Event.getMesheryCtl, Event.isServerRunning cfg.baseMesheryURL], some err)) ∧
      (∀ cfg err, env.getMesheryCtl = .ok cfg →
        env.isServerRunning cfg.baseMesheryURL = none → cfg.currentContext = .error err →
        PreRunE env =
          ([Event.getMesheryCtl, Event.isServerRunning cfg.baseMesheryURL,
            Event.getCurrentContext], some err)) ∧
      (∀ cfg ctx err, env.getMesheryCtl = .ok cfg →
        env.isServerRunning cfg.baseMesheryURL = none → cfg.currentContext = .ok ctx →
        ctx.validateVersion = some err →
        PreRunE env =
          ([Event.getMesheryCtl, Event.isServerRunning cfg.baseMesheryURL,
            Event.getCurrentContext, Event.validateVersion], some err)) ∧
      (∀ cfg ctx, env.getMesheryCtl = .ok cfg →
        env.isServerRunning cfg.baseMesheryURL = none → cfg.currentContext = .ok ctx →
        ctx.validateVersion = none →
        PreRunE env =
          ([Event.getMesheryCtl, Event.isServerRunning cfg.baseMesheryURL,
            Event.getCurrentContext, Event.validateVersion], none)) := by
  refine ⟨?_, ?_, ?_, ?_, ?_, ?_⟩
  · unfold PreRunE
    cases h1 : env.getMesheryCtl with
    | error err => simp
    | ok cfg =>
      cases h2 : env.isServerRunning cfg.baseMesheryURL with
      | some err => simp [h2]
      | none =>
        cases h3 : cfg.currentContext with
        | error err => simp [h2, h3]
        | ok ctx =>
          cases h4 : ctx.validateVersion with
          | some err => simp [h2, h3, h4]
          | none => simp [h2, h3, h4]
  · intro err h1
    simp [PreRunE, h1]
  · intro cfg err h1 h2
    simp [PreRunE, h1, h2]
  · intro cfg err h1 h2 h3
    simp [PreRunE, h1, h2, h3]
  · intro cfg ctx err h1 h2 h3 h4
    simp [PreRunE, h1, h2, h3, h4]
  · intro cfg ctx h1 h2 h3 h4
    simp [PreRunE, h1, h2, h3, h4]

/-- C10, at concrete environments: all four steps succeed; the server is not running
(the later failure of the version check is not reached); the version does not validate. -/
theorem PreRunE_spec_witness :
    PreRunE (prereqEnv none none none none) =
        ([Event.getMesheryCtl, Event.isServerRunning "http://localhost:9081",
          Event.getCurrentContext, Event.validateVersion], none) ∧
      PreRunE (prereqEnv none (some (GoError.new "down")) none (some (GoError.new "old"))) =
        ([Event.getMesheryCtl, Event.isServerRunning "http://localhost:9081"],
          some (GoError.new "down")) ∧
      PreRunE (prereqEnv none none none (some (GoError.new "old"))) =
        ([Event.getMesheryCtl, Event.isServerRunning "http://localhost:9081",
          Event.getCurrentContext, Event.validateVersion], some (GoError.new "old")) :=
  ⟨(PreRunE_spec (prereqEnv none none none none)).2.2.2.2.2 _ _ rfl rfl rfl rfl,
   (PreRunE_spec (prereqEnv none (some (GoError.new "down")) none
      (some (GoError.new "old")))).2.2.1 _ _ rfl rfl,
   (PreRunE_spec (prereqEnv none none none (some (GoError.new "old")))).2.2.2.2.1 _ _ _
      rfl rfl rfl rfl⟩

/-! ## The JSON presenter -/

theorem hexDigit_mem (n : Nat) : hexDigit n ∈ "0123456789abcdef".data := by
  unfold hexDigit hex
  rcases Nat.lt_or_ge n 16 with h | h
  · interval_cases n <;> decide
  · rw [List.getD_eq_default _ _ (by simpa using h)]
    decide

theorem hexDigit_ne (n : Nat) (t : Char) (ht : t = '&' ∨ t = '<' ∨ t = '>') :
    hexDigit n ≠ t := by
  intro h
  have hm := hexDigit_mem n
  rw [h] at hm
  rcases ht with rfl | rfl | rfl <;> revert hm <;> decide

theorem appendChar_false_count (c t : Char) (ht : t = '&' ∨ t = '<' ∨ t = '>') :
    (appendChar false c).count t = if c = t then 1 else 0 := by
  by_cases hct : c = t
  · subst hct
    rcases ht with rfl | rfl | rfl <;> decide
  · have h1 := hexDigit_ne (c.toNat / 16) t ht
    have h2 := hexDigit_ne (c.toNat % 16) t ht
    have h3 : ¬ ('\\' = t) := by rcases ht with rfl | rfl | rfl <;> decide
    have h4 : ¬ ('u' = t) ∧ ¬ ('0' = t) ∧ ¬ ('2' = t) ∧ ¬ ('b' = t) ∧ ¬ ('f' = t) ∧
        ¬ ('n' = t) ∧ ¬ ('r' = t) ∧ ¬ ('t' = t) := by
      rcases ht with rfl | rfl | rfl <;> decide
    obtain ⟨h5, h6, h7, h8, h9, h10, h11, h12⟩ := h4
    unfold appendChar
    split_ifs <;>
      simp only [List.count_cons, List.count_nil, beq_iff_eq, hct, h1, h2, h3, h5, h6, h7, h8,
        h9, h10, h11, h12, if_false, ite_false, Nat.zero_add]

theorem appendChar_true_count (c t : Char) (ht : t = '&' ∨ t = '<' ∨ t = '>') :
    (appendChar true c).count t = 0 := by
  by_cases hct : c = t
  · subst hct
    rcases ht with rfl | rfl | rfl <;> decide
  · have h1 := hexDigit_ne (c.toNat / 16) t ht
    have h2 := hexDigit_ne (c.toNat % 16) t ht
    have h3 : ¬ ('\\' = t) := by rcases ht with rfl | rfl | rfl <;> decide
    have h4 : ¬ ('u' = t) ∧ ¬ ('0' = t) ∧ ¬ ('2' = t) ∧ ¬ ('b' = t) ∧ ¬ ('f' = t) ∧
        ¬ ('n' = t) ∧ ¬ ('r' = t) ∧ ¬ ('t' = t) := by
      rcases ht with rfl | rfl | rfl <;> decide
    obtain ⟨h5, h6, h7, h8, h9, h10, h11, h12⟩ := h4
    unfold appendChar
    split_ifs <;>
      simp only [List.count_cons, List.count_nil, beq_iff_eq, hct, h1, h2, h3, h5, h6, h7, h8,
        h9, h10, h11, h12, if_false, ite_false, Nat.zero_add]

theorem appendString_false_count (s : String) (t : Char)
    (ht : t = '&' ∨ t = '<' ∨ t = '>') :
    (appendString false s).count t = occurrences t s := by
  have hq : ¬ ('\"' = t) := by rcases ht with rfl | rfl | rfl <;> decide
  have hl : ∀ l : List Char, (l.flatMap (appendChar false)).count t = l.count t := by
    intro l
    induction l with
    | nil => rfl
    | cons c l ih =>
      rw [List.flatMap_cons, List.count_append, ih, appendChar_false_count c t ht,
        List.count_cons]
      simp only [beq_iff_eq]
      omega
  simp only [appendString, occurrences, List.count_append, hl, List.count_cons,
    List.count_nil, beq_iff_eq, hq, if_false, Nat.zero_add, Nat.add_zero]

theorem appendString_true_count (s : String) (t : Char)
    (ht : t = '&' ∨ t = '<' ∨ t = '>') :
    (appendString true s).count t = 0 := by
  have hq : ¬ ('\"' = t) := by rcases ht with rfl | rfl | rfl <;> decide
  have hl : ∀ l : List Char, (l.flatMap (appendChar true)).count t = 0 := by
    intro l
    induction l with
    | nil => rfl
    | cons c l ih =>
      rw [List.flatMap_cons, List.count_append, ih, appendChar_true_count c t ht]
  simp only [appendString, List.count_append, hl, List.count_cons,
    List.count_nil, beq_iff_eq, hq, if_false, Nat.zero_add, Nat.add_zero]

theorem encodeModel_false_count (model : Model) (t : Char)
    (ht : t = '&' ∨ t = '<' ∨ t = '>') :
    occurrences t (encodeModel false model ++ "\n") = fieldOccurrences t model := by
  have h0 : ("\x7b\n  \"name\": ".data.count t = 0 ∧
      ",\n  \"display_name\": ".data.count t = 0 ∧ ",\n  \"version\": ".data.count t = 0 ∧
      ",\n  \"category\": \x7b\n    \"name\": ".data.count t = 0 ∧
      "\n  \x7d\n\x7d".data.count t = 0) ∧ "\n".data.count t = 0 := by
    rcases ht with rfl | rfl | rfl <;> decide
  obtain ⟨⟨h1, h2, h3, h4, h5⟩, h6⟩ := h0
  simp only [occurrences, fieldOccurrences, encodeModel, String.data_append,
    List.count_append, appendString_false_count _ t ht, h1, h2, h3, h4, h5, h6]
  omega

theorem encodeModel_true_count (model : Model) (t : Char)
    (ht : t = '&' ∨ t = '<' ∨ t = '>') :
    occurrences t (encodeModel true model) = 0 := by
  have h0 : "\x7b\n  \"name\": ".data.count t = 0 ∧
      ",\n  \"display_name\": ".data.count t = 0 ∧ ",\n  \"version\": ".data.count t = 0 ∧
      ",\n  \"category\": \x7b\n    \"name\": ".data.count t = 0 ∧
      "\n  \x7d\n\x7d".data.count t = 0 := by
    rcases ht with rfl | rfl | rfl <;> decide
  obtain ⟨h1, h2, h3, h4, h5⟩ := h0
  simp only [occurrences, encodeModel, List.count_append, appendString_true_count _ t ht,
    h1, h2, h3, h4, h5]

/-- C7: `outputJson` returns an error if and only if both `prettifyJson` and the fallback
`json.MarshalIndent` fail, and the error is then the fallback's error wrapped with
"failed to format output in JSON"; when `prettifyJson` succeeds the fallback is not run
and the only output is the one of `prettifyJson`; when only `prettifyJson` fails the
fallback's output is printed, once, and nil is returned. -/
theorem outputJson_spec (env : JsonEnv) (model : Model) :
    ((outputJson env model).2 ≠ none ↔
        env.encode model ≠ none ∧ env.marshalIndent model ≠ none) ∧
      (∀ e1 e2, env.encode model = some e1 → env.marshalIndent model = some e2 →
        outputJson env model =
          ([Event.encoderEncode model, Event.marshalIndent model],
            some (GoError.wrap e2 "failed to format output in JSON"))) ∧
      (env.encode model = none →
        outputJson env model =
          ([Event.encoderEncode model,
            Event.stdoutWrite (encodeModel false model ++ "\n")], none)) ∧
      (∀ e1, env.encode model = some e1 → env.marshalIndent model = none →
        outputJson env model =
          ([Event.encoderEncode model, Event.marshalIndent model,
            Event.fmtPrint (encodeModel true model)], none)) := by
  refine ⟨?_, ?_, ?_, ?_⟩
  · cases h1 : env.encode model <;> cases h2 : env.marshalIndent model <;>
      simp [outputJson, prettifyJson, h1, h2]
  · intro e1 e2 h1 h2
    simp [outputJson, prettifyJson, h1, h2]
  · intro h1
    simp [outputJson, prettifyJson, h1]
  · intro e1 h1 h2
    simp [outputJson, prettifyJson, h1, h2]

/-- C7, at concrete environments: both paths fail; only the primary path fails. -/
theorem outputJson_spec_witness :
    outputJson (jsonEnv (some (GoError.new "short write")) (some (GoError.new "cycle")))
        ampersandModel =
        ([Event.encoderEncode ampersandModel, Event.marshalIndent ampersandModel],
          some (GoError.wrap (GoError.new "cycle") "failed to format output in JSON")) ∧
      outputJson (jsonEnv (some (GoError.new "short write")) none) ampersandModel =
        ([Event.encoderEncode ampersandModel, Event.marshalIndent ampersandModel,
          Event.fmtPrint (encodeModel true ampersandModel)], none) :=
  ⟨(outputJson_spec (jsonEnv (some (GoError.new "short write"))
      (some (GoError.new "cycle"))) ampersandModel).2.1 _ _ rfl rfl,
   (outputJson_spec (jsonEnv (some (GoError.new "short write")) none)
      ampersandModel).2.2.2 _ rfl rfl⟩

/-- C8, as stated, fails: when `prettifyJson` fails and the fallback succeeds, the name
`a&b` is printed as `a\u0026b`; the printed text holds no `&`. -/
theorem outputJson_escape_counterexample :
    printed (outputJson (jsonEnv (some (GoError.new "short write")) none)
        ampersandModel).1 =
        ["\x7b\n  \"name\": \"a\\u0026b\",\n  \"display_name\": \"A\",\n  \"version\": \"v1\",\n  \"category\": \x7b\n    \"name\": \"c1\"\n  \x7d\n\x7d"] ∧
      occurrences '&' ampersandModel.Name = 1 ∧
      occurrences '&' (encodeModel true ampersandModel) = 0 := by
  decide

/-- C8, amended: on the primary path (`prettifyJson` succeeds) the JSON text that
`outputJson` prints does not HTML-escape `&`, `<` and `>`: each is encoded as itself, and
the printed text holds as many of each as the fields of the model do. On the fallback
path (`prettifyJson` fails, `json.MarshalIndent` succeeds) the printed text is
HTML-escaped: each of the three characters is encoded as `\u00XX` and the printed text
holds none of them. -/
theorem outputJson_escape (env : JsonEnv) (model : Model) (t : Char)
    (ht : t = '&' ∨ t = '<' ∨ t = '>') :
    (env.encode model = none →
        printed (outputJson env model).1 = [encodeModel false model ++ "\n"] ∧
          appendChar false t = [t] ∧
          occurrences t (encodeModel false model ++ "\n") = fieldOccurrences t model) ∧
      (∀ err, env.encode model = some err → env.marshalIndent model = none →
        printed (outputJson env model).1 = [encodeModel true model] ∧
          appendChar true t =
            ['\\', 'u', '0', '0', hexDigit (t.toNat / 16), hexDigit (t.toNat % 16)] ∧
          occurrences t (encodeModel true model) = 0) := by
  constructor
  · intro h1
    refine ⟨?_, ?_, encodeModel_false_count model t ht⟩
    · simp [outputJson, prettifyJson, h1, printed]
    · rcases ht with rfl | rfl | rfl <;> decide
  · intro err h1 h2
    refine ⟨?_, ?_, encodeModel_true_count model t ht⟩
    · simp [outputJson, prettifyJson, h1, h2, printed]
    · rcases ht with rfl | rfl | rfl <;> decide

/-- C8, amended, at the model named `a&b` on the primary path: the ampersand is printed
as it is. -/
theorem outputJson_escape_witness :
    printed (outputJson (jsonEnv none none) ampersandModel).1 =
        ["\x7b\n  \"name\": \"a&b\",\n  \"display_name\": \"A\",\n  \"version\": \"v1\",\n  \"category\": \x7b\n    \"name\": \"c1\"\n  \x7d\n\x7d\n"] ∧
      occurrences '&' (encodeModel false ampersandModel ++ "\n") = 1 :=
  have h := (outputJson_escape (jsonEnv none none) ampersandModel '&' (Or.inl rfl)).1 rfl
  ⟨h.1.trans (by decide), h.2.2.trans (by decide)⟩

/-! ## The selection prompt -/

theorem foldl_names (modelArray : List Model) (acc : List String) :
    modelArray.foldl
      (fun names model => names ++ [model.DisplayName ++ ", version: " ++ model.Version])
      acc =
      acc ++ modelArray.map (fun model => model.DisplayName ++ ", version: " ++ model.Version) := by
  induction modelArray generalizing acc with
  | nil => simp
  | cons m ms ih => rw [List.foldl_cons, ih]; simp

theorem modelNames_eq (modelArray : List Model) :
    modelNames modelArray =
      modelArray.map (fun model => model.DisplayName ++ ", version: " ++ model.Version) := by
  simp [modelNames, foldl_names]

theorem promptLoop_first_success (run : Nat → List String → Except GoError (Int × String))
    (modelArray : List Model) (items : List String) (i : Int) (s : String) :
    ∀ (n fuel k0 : Nat), (∀ j, k0 ≤ j → j < k0 + n → ∃ e, run j items = .error e) →
      run (k0 + n) items = .ok (i, s) → n < fuel →
      promptLoop run modelArray items fuel k0 =
        (List.replicate (n + 1) (Event.promptRun "Select a model" items),
          some (index modelArray i)) := by
  intro n
  induction n with
  | zero =>
    intro fuel k0 _ hok hfuel
    obtain ⟨f, rfl⟩ : ∃ f, fuel = f + 1 := ⟨fuel - 1, by omega⟩
    simp only [Nat.add_zero] at hok
    simp [promptLoop, hok, List.replicate]
  | succ n ih =>
    intro fuel k0 hfail hok hfuel
    obtain ⟨f, rfl⟩ : ∃ f, fuel = f + 1 := ⟨fuel - 1, by omega⟩
    obtain ⟨e, he⟩ := hfail k0 (Nat.le_refl _) (by omega)
    have h := ih f (k0 + 1) (fun j h1 h2 => hfail j (by omega) (by omega))
      (by rw [← hok]; congr 1; omega) (by omega)
    simp only [promptLoop, he, h]
    rfl

theorem promptLoop_returns (run : Nat → List String → Except GoError (Int × String))
    (modelArray : List Model) (items : List String) :
    ∀ (fuel k0 : Nat) (r : Outcome Model),
      (promptLoop run modelArray items fuel k0).2 = some r →
      ∃ k, k0 ≤ k ∧ k < k0 + fuel ∧ ∃ i s, run k items = .ok (i, s) := by
  intro fuel
  induction fuel with
  | zero =>
    intro k0 r h
    simp [promptLoop] at h
  | succ f ih =>
    intro k0 r h
    cases hr : run k0 items with
    | error e =>
      simp only [promptLoop, hr] at h
      obtain ⟨k, h1, h2, h3⟩ := ih (k0 + 1) r h
      exact ⟨k, by omega, by omega, h3⟩
    | ok p =>
      exact ⟨k0, Nat.le_refl _, by omega, p.1, p.2, hr⟩

/-- C9: `selectModelPrompt` offers one label per model, in the order of the models, the
label of a model being "{DisplayName}, version: {Version}". If the runs of the prompt
before the `k`-th fail and the `k`-th succeeds with the index of an offered label, that
index is within the list of models and, given more than `k` runs, the function runs the
prompt `k + 1` times with the same labels and returns the model of the input list at that
index. It returns only if some run of the prompt succeeds: as long as the runs fail it
prompts again, whatever the number of runs. -/
theorem selectModelPrompt_spec (run : Nat → List String → Except GoError (Int × String))
    (models : List Model) :
    modelNames models =
        models.map (fun model => model.DisplayName ++ ", version: " ++ model.Version) ∧
      (modelNames models).length = models.length ∧
      (∀ k i s, (∀ j < k, ∃ e, run j (modelNames models) = .error e) →
        run k (modelNames models) = .ok (i, s) → 0 ≤ i →
        i.toNat < (modelNames models).length →
        ∃ model, models[i.toNat]? = some model ∧
          ∀ fuel, k < fuel →
            selectModelPrompt run models fuel =
              (List.replicate (k + 1) (Event.promptRun "Select a model" (modelNames models)),
                some (Outcome.returned model))) ∧
      (∀ fuel r, (selectModelPrompt run models fuel).2 = some r →
        ∃ k < fuel, ∃ i s, run k (modelNames models) = .ok (i, s)) ∧
      (∀ fuel, (∀ j < fuel, ∃ e, run j (modelNames models) = .error e) →
        selectModelPrompt run models fuel =
          (List.replicate fuel (Event.promptRun "Select a model" (modelNames models)),
            none)) := by
  have hlen : (modelNames models).length = models.length := by
    rw [modelNames_eq, List.length_map]
  refine ⟨modelNames_eq models, hlen, ?_, ?_, ?_⟩
  · intro k i s hfail hok hi hlt
    rw [hlen] at hlt
    refine ⟨models.get ⟨i.toNat, hlt⟩, by simp [List.getElem?_eq_getElem hlt], ?_⟩
    intro fuel hfuel
    have h := promptLoop_first_success run models (modelNames models) i s k fuel 0
      (fun j _ h2 => hfail j (by omega)) (by simpa using hok) hfuel
    simp only [selectModelPrompt, List.nil_append, h, index, hi, if_true,
      List.getElem?_eq_getElem hlt]
    rfl
  · intro fuel r h
    obtain ⟨k, _, h2, h3⟩ := promptLoop_returns run models (modelNames models) fuel 0 r
      (by simpa [selectModelPrompt] using h)
    exact ⟨k, by omega, h3⟩
  · intro fuel
    simp only [selectModelPrompt, List.nil_append]
    suffices hs : ∀ (f k0 : Nat), (∀ j, k0 ≤ j → j < k0 + f →
        ∃ e, run j (modelNames models) = .error e) →
        promptLoop run models (modelNames models) f k0 =
          (List.replicate f (Event.promptRun "Select a model" (modelNames models)), none) by
      intro hfail
      exact hs fuel 0 (fun j _ h2 => hfail j (by omega))
    intro f
    induction f with
    | zero => intro k0 _; rfl
    | succ f ih =>
      intro k0 hfail
      obtain ⟨e, he⟩ := hfail k0 (Nat.le_refl _) (by omega)
      simp only [promptLoop, he, ih (k0 + 1) (fun j h1 h2 => hfail j (by omega) (by omega))]
      rfl

/-- C9, at the two models of the spec's example with a prompt whose first run fails and
whose second run selects index 1: two runs, and the second model is returned. -/
theorem selectModelPrompt_spec_witness :
    modelNames exampleResponse.Models = ["A, version: v1", ", version: v2"] ∧
      selectModelPrompt secondTry exampleResponse.Models 5 =
        (List.replicate 2 (Event.promptRun "Select a model"
          ["A, version: v1", ", version: v2"]),
         some (Outcome.returned ⟨"b", "", "v2", ⟨"c2"⟩⟩)) :=
  ⟨(selectModelPrompt_spec secondTry exampleResponse.Models).1.trans (by decide),
   match (selectModelPrompt_spec secondTry exampleResponse.Models).2.2.1 1 1 ", version: v2"
      (fun j hj => ⟨GoError.new "^C", by
        have h0 : j = 0 := by omega
        subst h0
        rfl⟩) rfl (by decide) (by decide) with
   | ⟨_, hm, h⟩ => by
     cases hm
     exact h 5 (by decide)⟩

end Meshery
